import Mathlib

/-!
Shallow embedding of the delta-generation pipeline of
`recipes-samples/delta-generation/files/simple-delta-gen.py`
(class `SimpleDeltaGen`).

External processes (`cpio -it`, `cpio -idmv`, `cpio -o`, `bsdiff`, `zstd`),
filesystem probes (`stat`, `is_file`, `exists`) and the bytes they move are
modelled as inputs in environment records; the Python control flow over those
outcomes is translated function by function.  Log lines and process
invocations that the claims talk about are recorded in an event trace.
-/

set_option autoImplicit false

namespace SimpleDeltaGen

/-- The distinct files a delta job reads or writes: the two input archives,
the optional recompressed target, the scratch diff and the final compressed
diff.  They are the five paths `generate_delta` mentions. -/
inductive FileId
  | sourceSwu
  | targetSwu
  | recompressedOutput
  | tempDiff
  | outputDiff
deriving DecidableEq

/-- Observable events of a job: the log lines and external-process runs the
claims refer to, in the order the Python code emits them. -/
inductive Event
  | listFiles
  | warnListFailed
  | runExtract
  | extractFailed
  | warnStatOriginalFailed
  | errorExtractSwu
  | warnControlNotFirst
  | warnMissingFile (name : String)
  | errorNoFiles
  | openOutput
  | runCpio (files : List String)
  | errorCpioFailed
  | cleanupTemp
  | warnRecompressFailed
deriving DecidableEq

/-- The control member name `sw-description` (SWUpdate requirement). -/
def swDescription : String := "sw-description"

/-- The characters Python's `str.strip` removes (ASCII whitespace): space,
tab, newline, carriage return, vertical tab, form feed. -/
def pyWhitespace (c : Char) : Bool :=
  c = ' ' || c = '\t' || c = '\n' || c = '\r' || c = '\x0b' || c = '\x0c'

/-- Python `line.strip()`: drop leading and trailing whitespace. -/
def pyStrip (s : String) : String :=
  String.mk (((s.toList.dropWhile pyWhitespace).reverse.dropWhile
    pyWhitespace).reverse)

/-- Line 87: `[line.strip() for line in result.stdout.splitlines() if line.strip()]`. -/
def stripLines (lines : List String) : List String :=
  (lines.map pyStrip).filter (fun l => l != "")

/-- Outcomes of the two external `cpio` runs inside `extract_swu`:
`listing` is the stdout of `cpio -it` (`none` when the run raised
`CalledProcessError`), `extractOk` the success of `cpio -idmv`. -/
structure ExtractEnv where
  listing : Option (List String)
  extractOk : Bool

/-- Lines 67-112, `extract_swu`: list the archive (a failure only logs a
warning), then extract; returns the file order, or `none` on extraction
failure — and also `none` when `file_order` is empty, because of
`return file_order if file_order else None` on line 109. -/
def extract_swu (env : ExtractEnv) : Option (List String) × List Event :=
  let listed : List String × List Event :=
    match env.listing with
    | some lines => (stripLines lines, [Event.listFiles])
    | none => ([], [Event.listFiles, Event.warnListFailed])
  if env.extractOk then
    ((if listed.1.isEmpty then none else some listed.1),
      listed.2 ++ [Event.runExtract])
  else
    (none, listed.2 ++ [Event.runExtract, Event.extractFailed])

/-- Lines 188-195: enforce that `sw-description` is the first entry.  The
guard is `if not original_file_order or original_file_order[0] != "sw-description"`;
`list.remove` deletes the first occurrence and is only called when the name
is present, which is exactly `List.erase`. -/
def fixControlFirst (order : List String) : List String × List Event :=
  if order.head? = some swDescription then
    (order, [])
  else
    (swDescription :: order.erase swDescription, [Event.warnControlNotFirst])

/-- Lines 197-204: keep the names whose extracted path `is_file()`; every
skipped name is logged with a warning. -/
def verifyFiles (onDisk : String → Bool) : List String → List String × List Event
  | [] => ([], [])
  | f :: rest =>
    let p := verifyFiles onDisk rest
    if onDisk f then
      (f :: p.1, p.2)
    else
      (p.1, Event.warnMissingFile f :: p.2)

/-- Outcomes of the external steps of one `recompress_swu` call:
the `stat` of the original archive (`none` = `OSError`), the two extraction
runs, the `is_file` probe of each extracted path, the `cpio -o` exit code,
the bytes that process wrote into the opened output file, and whether the
final `output_swu.stat()` succeeded (a failure there is swallowed by the
generic `except` and turns the call into a failure). -/
structure RecompressEnv where
  originalStat : Option Nat
  extract : ExtractEnv
  onDisk : String → Bool
  cpioExitCode : Int
  cpioOutput : List Nat
  outputStatOk : Bool

/-- Contract of the external archive-construction run (`cpio -o -H crc
--reproducible` fed one name per line on stdin): the member listing of the
archive it writes is exactly the enumeration it was fed. -/
def cpioListing (files : List String) : List String := files

/-- Result of `recompress_swu`: the boolean the Python function returns,
the verified list fed to `cpio -o` stdin (`none` when that stage was never
reached), whether `open(output_swu, 'wb')` ran (creating/truncating the
output file), the member listing of the archive built on a completed
`cpio -o` run, and the event trace. -/
structure RecompressResult where
  success : Bool
  fedList : Option (List String)
  outputOpened : Bool
  builtListing : Option (List String)
  trace : List Event

/-- Lines 173-177: the guarded `original_swu.stat()` logs a warning when it
raises `OSError` (the size only feeds log lines afterwards). -/
def statWarn (o : Option Nat) : List Event :=
  match o with
  | some _ => []
  | none => [Event.warnStatOriginalFailed]

/-- Lines 188-253, the part of `recompress_swu` after a successful
extraction that produced `order`: enforce the control member first, filter
to files present on disk, fail on an empty list, else open the output
file, run `cpio -o` on the verified list, fail on a nonzero exit
(leaving the scratch directory in place), stat the output and clean up —
the generic `except` turns a failing output `stat` into a failure after
cleanup. -/
def recompressCore (env : RecompressEnv) (pre : List Event)
    (order : List String) : RecompressResult :=
  let fixed := fixControlFirst order
  let ver := verifyFiles env.onDisk fixed.1
  if ver.1.isEmpty then
    { success := false, fedList := none, outputOpened := false,
      builtListing := none,
      trace := pre ++ fixed.2 ++ ver.2 ++ [Event.errorNoFiles] }
  else
    let base := pre ++ fixed.2 ++ ver.2
      ++ [Event.openOutput, Event.runCpio ver.1]
    if env.cpioExitCode ≠ 0 then
      { success := false, fedList := some ver.1, outputOpened := true,
        builtListing := none, trace := base ++ [Event.errorCpioFailed] }
    else if env.outputStatOk then
      { success := true, fedList := some ver.1, outputOpened := true,
        builtListing := some (cpioListing ver.1),
        trace := base ++ [Event.cleanupTemp] }
    else
      { success := false, fedList := some ver.1, outputOpened := true,
        builtListing := some (cpioListing ver.1),
        trace := base ++ [Event.cleanupTemp] }

/-- Lines 161-253, `recompress_swu`: stat the original (warning on failure),
extract recording the original order, fail if extraction signalled failure,
then run the repackaging core on the recorded order. -/
def recompress_swu (env : RecompressEnv) : RecompressResult :=
  let statEv := statWarn env.originalStat
  let ex := extract_swu env.extract
  match ex.1 with
  | none =>
    { success := false, fedList := none, outputOpened := false,
      builtListing := none, trace := statEv ++ ex.2 ++ [Event.errorExtractSwu] }
  | some order => recompressCore env (statEv ++ ex.2) order

/-- Lines 320-338, `generate_statistics`: the five metrics of the
statistics report, computed from the three stat'd sizes.  Python's float
division is modelled exactly over `ℚ`; `target_size - diff_size` is an
`int` and may be negative, hence `ℤ`. -/
structure Stats where
  source_size : Nat
  target_size : Nat
  diff_size : Nat
  compression_ratio : ℚ
  space_saved : ℤ
deriving DecidableEq

/-- `compression_ratio = (diff_size / target_size) * 100 if target_size > 0 else 0`
and `Space saved: target_size - diff_size`. -/
def generate_statistics (source_size target_size diff_size : Nat) : Stats :=
  { source_size := source_size
    target_size := target_size
    diff_size := diff_size
    compression_ratio :=
      if 0 < target_size then ((diff_size : ℚ) / (target_size : ℚ)) * 100 else 0
    space_saved := (target_size : ℤ) - (diff_size : ℤ) }

/-- Outcomes of the external steps of one `generate_delta` job: the two
initial `stat` calls (`none` = the call raised), whether a recompressed
output path was passed, whether a file already sat at that path before the
job, the recompression environment, the `shutil.which` probe and run
outcome of `bsdiff`, the same for `zstd`, the bytes `bsdiff` and the
compressor write, and the byte contents of every file when the job
starts. -/
structure DeltaEnv where
  sourceStat : Option Nat
  targetStat : Option Nat
  recompressRequested : Bool
  recompressedPreexists : Bool
  renv : RecompressEnv
  bsdiffAvailable : Bool
  bsdiffOk : Bool
  zstdAvailable : Bool
  zstdOk : Bool
  bsdiffBytes : List Nat
  compressedBytes : List Nat
  contents : FileId → List Nat

/-- File contents after the recompression attempt: `open(output_swu, 'wb')`
creates/truncates the output file, and the `cpio -o` process then writes
whatever bytes it produced (all of the archive, or a partial/empty prefix
on failure) — no other file is touched. -/
def afterRecompress (contents : FileId → List Nat) (r : RecompressResult)
    (written : List Nat) : FileId → List Nat :=
  if r.outputOpened then
    Function.update contents FileId.recompressedOutput written
  else
    contents

/-- Result of `generate_delta`: the boolean it returns, the file handed to
`bsdiff` as the diff target, the file whose size the statistics report used
as target (when statistics ran), the stats record written, the final file
contents, and the event trace. -/
structure DeltaResult where
  success : Bool
  targetForDiff : FileId
  statsTarget : Option FileId
  stats : Option Stats
  finalContents : FileId → List Nat
  trace : List Event

/-- A `generate_delta` run either raises an uncaught exception or finishes
with a result. -/
inductive DeltaOutcome
  | raised
  | finished (r : DeltaResult)

/-- Lines 272-318, the pipeline `generate_delta` runs after the size probe:
optionally recompress the target, falling back to the original target with
a warning when recompression fails, run `bsdiff` (which must be on PATH and
succeed), compress the diff (`zstd` when available, else the
always-succeeding gzip fallback), then generate statistics against the
recompressed output whenever that path was requested and a file exists
there, otherwise against the original target. -/
def deltaCore (env : DeltaEnv) : DeltaResult :=
  let rres : Option RecompressResult :=
      if env.recompressRequested then some (recompress_swu env.renv) else none
    let c1 : FileId → List Nat :=
      match rres with
      | some r => afterRecompress env.contents r env.renv.cpioOutput
      | none => env.contents
    let targetForDiff : FileId :=
      match rres with
      | some r => if r.success then FileId.recompressedOutput else FileId.targetSwu
      | none => FileId.targetSwu
    let trace0 : List Event :=
      match rres with
      | some r => r.trace ++ (if r.success then [] else [Event.warnRecompressFailed])
      | none => []
    if !env.bsdiffAvailable || !env.bsdiffOk then
      { success := false, targetForDiff := targetForDiff, statsTarget := none,
        stats := none, finalContents := c1, trace := trace0 }
    else
      let c2 := Function.update c1 FileId.tempDiff env.bsdiffBytes
      if env.zstdAvailable && !env.zstdOk then
        { success := false, targetForDiff := targetForDiff, statsTarget := none,
          stats := none, finalContents := c2, trace := trace0 }
      else
        let c3 := Function.update c2 FileId.outputDiff env.compressedBytes
        let recompressedExists : Bool :=
          env.recompressedPreexists
            || (match rres with
                | some r => r.outputOpened
                | none => false)
        let statsTarget : FileId :=
          if env.recompressRequested && recompressedExists then
            FileId.recompressedOutput
          else
            FileId.targetSwu
        { success := true, targetForDiff := targetForDiff,
          statsTarget := some statsTarget,
          stats := some (generate_statistics (c3 FileId.sourceSwu).length
            (c3 statsTarget).length (c3 FileId.outputDiff).length)
          finalContents := c3, trace := trace0 }

/-- Lines 255-318, `generate_delta`: the size probe stats both inputs
unguarded — a stat failure raises out of the function — then the rest of
the pipeline runs and its boolean is returned. -/
def generate_delta (env : DeltaEnv) : DeltaOutcome :=
  if env.sourceStat.isNone || env.targetStat.isNone then
    DeltaOutcome.raised
  else
    DeltaOutcome.finished (deltaCore env)

/-- The boolean a finished job returned; a raised job returned nothing,
read here as failure. -/
def DeltaOutcome.success : DeltaOutcome → Bool
  | DeltaOutcome.raised => false
  | DeltaOutcome.finished r => r.success

/-- The diff target of a finished job. -/
def DeltaOutcome.targetForDiff : DeltaOutcome → Option FileId
  | DeltaOutcome.raised => none
  | DeltaOutcome.finished r => some r.targetForDiff

/-- The statistics target of a finished job that reached statistics. -/
def DeltaOutcome.statsTarget : DeltaOutcome → Option FileId
  | DeltaOutcome.raised => none
  | DeltaOutcome.finished r => r.statsTarget

/-- The statistics record of a finished job that reached statistics. -/
def DeltaOutcome.stats : DeltaOutcome → Option Stats
  | DeltaOutcome.raised => none
  | DeltaOutcome.finished r => r.stats

/-! ### Concrete environments

Small closed jobs used to evaluate the model at explicit inputs. -/

/-- A well-formed two-member archive whose every external step succeeds. -/
def sampleRecompressEnv : RecompressEnv :=
  { originalStat := some 2048
    extract := { listing := some [swDescription, "rootfs.img"], extractOk := true }
    onDisk := fun _ => true
    cpioExitCode := 0
    cpioOutput := [0, 1, 2]
    outputStatOk := true }

/-- An archive whose listing lacks the control member; every listed member
extracts to a regular file, and no file named like the control member is on
disk. -/
def absentControlEnv : RecompressEnv :=
  { originalStat := some 1024
    extract := { listing := some ["rootfs.img"], extractOk := true }
    onDisk := fun f => f != swDescription
    cpioExitCode := 0
    cpioOutput := [3]
    outputStatOk := true }

/-- A listing with one member name that is not a file on disk after
extraction. -/
def missingMemberEnv : RecompressEnv :=
  { originalStat := some 1024
    extract :=
      { listing := some [swDescription, "ghost.img", "rootfs.img"]
        extractOk := true }
    onDisk := fun f => f != "ghost.img"
    cpioExitCode := 0
    cpioOutput := [4]
    outputStatOk := true }

/-- A listing none of whose entries is a regular file on disk (for example
an archive holding only directories). -/
def noRegularFilesEnv : RecompressEnv :=
  { originalStat := some 1024
    extract := { listing := some ["subdir"], extractOk := true }
    onDisk := fun _ => false
    cpioExitCode := 0
    cpioOutput := []
    outputStatOk := true }

/-- `cpio -it` raised `CalledProcessError`; `cpio -idmv` succeeded. -/
def listFailEnv : RecompressEnv :=
  { originalStat := some 1024
    extract := { listing := none, extractOk := true }
    onDisk := fun _ => true
    cpioExitCode := 0
    cpioOutput := []
    outputStatOk := true }

/-- Recompression reaches the archive-construction run and that run exits
nonzero after writing nothing into the already-opened output file. -/
def cpioFailRecompressEnv : RecompressEnv :=
  { originalStat := some 2048
    extract := { listing := some [swDescription, "rootfs.img"], extractOk := true }
    onDisk := fun _ => true
    cpioExitCode := 1
    cpioOutput := []
    outputStatOk := true }

/-- A job with a recompressed-output path whose recompression fails at the
`cpio -o` stage, while `bsdiff` and the gzip fallback succeed. -/
def statsMismatchEnv : DeltaEnv :=
  { sourceStat := some 100
    targetStat := some 90
    recompressRequested := true
    recompressedPreexists := false
    renv := cpioFailRecompressEnv
    bsdiffAvailable := true
    bsdiffOk := true
    zstdAvailable := false
    zstdOk := false
    bsdiffBytes := [9, 9]
    compressedBytes := [9]
    contents := fun _ => [0, 0, 0] }

/-- A job whose source archive path cannot be statted. -/
def statRaisesEnv : DeltaEnv :=
  { statsMismatchEnv with sourceStat := none }

/-- A job without a recompressed-output path where every step succeeds. -/
def plainSuccessEnv : DeltaEnv :=
  { sourceStat := some 100
    targetStat := some 90
    recompressRequested := false
    recompressedPreexists := false
    renv := sampleRecompressEnv
    bsdiffAvailable := true
    bsdiffOk := true
    zstdAvailable := true
    zstdOk := true
    bsdiffBytes := [1, 2, 3]
    compressedBytes := [1, 2]
    contents := fun _ => [0] }

/-- A job with recompression requested and failing, with `zstd` available
and succeeding. -/
def fallbackEnv : DeltaEnv :=
  { statsMismatchEnv with zstdAvailable := true, zstdOk := true }

/-- A job with recompression requested and succeeding. -/
def recompressSuccessEnv : DeltaEnv :=
  { statsMismatchEnv with renv := sampleRecompressEnv }

/-! ### Basic lemmas about the repackaging pieces -/

theorem verifyFiles_fst (d : String → Bool) (l : List String) :
    (verifyFiles d l).1 = l.filter d := by
  induction l with
  | nil => rfl
  | cons f rest ih =>
    simp only [verifyFiles, List.filter_cons]
    cases h : d f <;> simp [h, ih]

theorem verifyFiles_snd_nil (d : String → Bool) (l : List String)
    (h : ∀ f ∈ l, d f = true) : (verifyFiles d l).2 = [] := by
  induction l with
  | nil => rfl
  | cons f rest ih =>
    simp only [verifyFiles]
    rw [h f (List.mem_cons_self f rest)]
    simpa using ih fun g hg => h g (List.mem_cons_of_mem f hg)

theorem verifyFiles_warns (d : String → Bool) (l : List String) (f : String)
    (hf : f ∈ l) (hd : d f = false) :
    Event.warnMissingFile f ∈ (verifyFiles d l).2 := by
  induction l with
  | nil => cases hf
  | cons g rest ih =>
    simp only [verifyFiles]
    rcases List.mem_cons.mp hf with rfl | hmem
    · simp [hd]
    · cases h : d g <;> simp [h, ih hmem]

theorem verifyFiles_snd_shape (d : String → Bool) (l : List String) :
    ∀ e ∈ (verifyFiles d l).2, ∃ f, e = Event.warnMissingFile f := by
  induction l with
  | nil => intro e he; cases he
  | cons g rest ih =>
    intro e he
    simp only [verifyFiles] at he
    split at he
    · exact ih e he
    · rcases List.mem_cons.mp he with rfl | hmem
      · exact ⟨g, rfl⟩
      · exact ih e hmem

theorem fixControlFirst_snd_shape (order : List String) :
    ∀ e ∈ (fixControlFirst order).2, e = Event.warnControlNotFirst := by
  intro e he
  unfold fixControlFirst at he
  split at he
  · cases he
  · rcases List.mem_cons.mp he with rfl | hmem
    · rfl
    · cases hmem

theorem statWarn_shape (o : Option Nat) :
    ∀ e ∈ statWarn o, e = Event.warnStatOriginalFailed := by
  intro e he
  cases o with
  | some n => cases he
  | none =>
    rcases List.mem_cons.mp he with rfl | hmem
    · rfl
    · cases hmem

theorem extract_swu_eq (env : ExtractEnv) (lines : List String)
    (hl : env.listing = some lines) (hx : env.extractOk = true)
    (hne : stripLines lines ≠ []) :
    extract_swu env = (some (stripLines lines),
      [Event.listFiles, Event.runExtract]) := by
  obtain ⟨listing, ok⟩ := env
  cases hl
  cases hx
  simp [extract_swu, List.isEmpty_iff, hne]

theorem recompress_swu_extract_none (env : RecompressEnv)
    (h : (extract_swu env.extract).1 = none) :
    recompress_swu env =
      { success := false, fedList := none, outputOpened := false,
        builtListing := none,
        trace := statWarn env.originalStat ++ (extract_swu env.extract).2
          ++ [Event.errorExtractSwu] } := by
  simp only [recompress_swu, h]

theorem recompress_swu_extract_some (env : RecompressEnv) (order : List String)
    (h : (extract_swu env.extract).1 = some order) :
    recompress_swu env =
      recompressCore env (statWarn env.originalStat ++ (extract_swu env.extract).2)
        order := by
  simp only [recompress_swu, h]

theorem recompressCore_empty (env : RecompressEnv) (pre : List Event)
    (order : List String)
    (he : (fixControlFirst order).1.filter env.onDisk = []) :
    recompressCore env pre order =
      { success := false, fedList := none, outputOpened := false,
        builtListing := none,
        trace := pre ++ (fixControlFirst order).2
          ++ (verifyFiles env.onDisk (fixControlFirst order).1).2
          ++ [Event.errorNoFiles] } := by
  have h1 : (verifyFiles env.onDisk (fixControlFirst order).1).1 = [] := by
    rw [verifyFiles_fst]; exact he
  simp [recompressCore, h1]

theorem recompressCore_cpio_fail (env : RecompressEnv) (pre : List Event)
    (order : List String)
    (hne : (fixControlFirst order).1.filter env.onDisk ≠ [])
    (hcpio : env.cpioExitCode ≠ 0) :
    recompressCore env pre order =
      { success := false,
        fedList := some ((fixControlFirst order).1.filter env.onDisk),
        outputOpened := true, builtListing := none,
        trace := pre ++ (fixControlFirst order).2
          ++ (verifyFiles env.onDisk (fixControlFirst order).1).2
          ++ [Event.openOutput,
              Event.runCpio ((fixControlFirst order).1.filter env.onDisk),
              Event.errorCpioFailed] } := by
  have h1 : (verifyFiles env.onDisk (fixControlFirst order).1).1
      = (fixControlFirst order).1.filter env.onDisk := verifyFiles_fst _ _
  simp [recompressCore, h1, List.isEmpty_iff, hne, hcpio]

theorem recompressCore_cpio_ok (env : RecompressEnv) (pre : List Event)
    (order : List String)
    (hne : (fixControlFirst order).1.filter env.onDisk ≠ [])
    (hcpio : env.cpioExitCode = 0) (hstat : env.outputStatOk = true) :
    recompressCore env pre order =
      { success := true,
        fedList := some ((fixControlFirst order).1.filter env.onDisk),
        outputOpened := true,
        builtListing := some (cpioListing ((fixControlFirst order).1.filter env.onDisk)),
        trace := pre ++ (fixControlFirst order).2
          ++ (verifyFiles env.onDisk (fixControlFirst order).1).2
          ++ [Event.openOutput,
              Event.runCpio ((fixControlFirst order).1.filter env.onDisk),
              Event.cleanupTemp] } := by
  have h1 : (verifyFiles env.onDisk (fixControlFirst order).1).1
      = (fixControlFirst order).1.filter env.onDisk := verifyFiles_fst _ _
  simp [recompressCore, h1, List.isEmpty_iff, hne, hcpio, hstat]

theorem recompressCore_stat_fail (env : RecompressEnv) (pre : List Event)
    (order : List String)
    (hne : (fixControlFirst order).1.filter env.onDisk ≠ [])
    (hcpio : env.cpioExitCode = 0) (hstat : env.outputStatOk = false) :
    recompressCore env pre order =
      { success := false,
        fedList := some ((fixControlFirst order).1.filter env.onDisk),
        outputOpened := true,
        builtListing := some (cpioListing ((fixControlFirst order).1.filter env.onDisk)),
        trace := pre ++ (fixControlFirst order).2
          ++ (verifyFiles env.onDisk (fixControlFirst order).1).2
          ++ [Event.openOutput,
              Event.runCpio ((fixControlFirst order).1.filter env.onDisk),
              Event.cleanupTemp] } := by
  have h1 : (verifyFiles env.onDisk (fixControlFirst order).1).1
      = (fixControlFirst order).1.filter env.onDisk := verifyFiles_fst _ _
  simp [recompressCore, h1, List.isEmpty_iff, hne, hcpio, hstat]

theorem recompressCore_fix_events (env : RecompressEnv) (pre : List Event)
    (order : List String) :
    ∀ e ∈ (fixControlFirst order).2, e ∈ (recompressCore env pre order).trace := by
  intro e he
  by_cases hemp : (fixControlFirst order).1.filter env.onDisk = []
  · rw [recompressCore_empty env pre order hemp]
    simp [List.mem_append, he]
  · by_cases hcpio : env.cpioExitCode = 0
    · cases hstat : env.outputStatOk with
      | true =>
        rw [recompressCore_cpio_ok env pre order hemp hcpio hstat]
        simp [List.mem_append, he]
      | false =>
        rw [recompressCore_stat_fail env pre order hemp hcpio hstat]
        simp [List.mem_append, he]
    · rw [recompressCore_cpio_fail env pre order hemp hcpio]
      simp [List.mem_append, he]

theorem recompressCore_ver_events (env : RecompressEnv) (pre : List Event)
    (order : List String) :
    ∀ e ∈ (verifyFiles env.onDisk (fixControlFirst order).1).2,
      e ∈ (recompressCore env pre order).trace := by
  intro e he
  by_cases hemp : (fixControlFirst order).1.filter env.onDisk = []
  · rw [recompressCore_empty env pre order hemp]
    simp [List.mem_append, he]
  · by_cases hcpio : env.cpioExitCode = 0
    · cases hstat : env.outputStatOk with
      | true =>
        rw [recompressCore_cpio_ok env pre order hemp hcpio hstat]
        simp [List.mem_append, he]
      | false =>
        rw [recompressCore_stat_fail env pre order hemp hcpio hstat]
        simp [List.mem_append, he]
    · rw [recompressCore_cpio_fail env pre order hemp hcpio]
      simp [List.mem_append, he]

theorem recompressCore_fedList_onDisk (env : RecompressEnv) (pre : List Event)
    (order : List String) (fl : List String)
    (h : (recompressCore env pre order).fedList = some fl) :
    ∀ f ∈ fl, env.onDisk f = true := by
  by_cases hemp : (fixControlFirst order).1.filter env.onDisk = []
  · rw [recompressCore_empty env pre order hemp] at h
    cases h
  · by_cases hcpio : env.cpioExitCode = 0
    · cases hstat : env.outputStatOk with
      | true =>
        rw [recompressCore_cpio_ok env pre order hemp hcpio hstat] at h
        obtain rfl : (fixControlFirst order).1.filter env.onDisk = fl :=
          Option.some_injective _ h
        intro f hf
        exact List.of_mem_filter hf
      | false =>
        rw [recompressCore_stat_fail env pre order hemp hcpio hstat] at h
        obtain rfl : (fixControlFirst order).1.filter env.onDisk = fl :=
          Option.some_injective _ h
        intro f hf
        exact List.of_mem_filter hf
    · rw [recompressCore_cpio_fail env pre order hemp hcpio] at h
      obtain rfl : (fixControlFirst order).1.filter env.onDisk = fl :=
        Option.some_injective _ h
      intro f hf
      exact List.of_mem_filter hf

theorem recompress_swu_fedList_onDisk (env : RecompressEnv) (fl : List String)
    (h : (recompress_swu env).fedList = some fl) :
    ∀ f ∈ fl, env.onDisk f = true := by
  cases hex : (extract_swu env.extract).1 with
  | none =>
    rw [recompress_swu_extract_none env hex] at h
    cases h
  | some order =>
    rw [recompress_swu_extract_some env order hex] at h
    exact recompressCore_fedList_onDisk env _ order fl h

theorem recompress_swu_success_opened (env : RecompressEnv)
    (h : (recompress_swu env).success = true) :
    (recompress_swu env).outputOpened = true := by
  cases hex : (extract_swu env.extract).1 with
  | none =>
    rw [recompress_swu_extract_none env hex] at h
    cases h
  | some order =>
    rw [recompress_swu_extract_some env order hex] at h ⊢
    by_cases hemp : (fixControlFirst order).1.filter env.onDisk = []
    · rw [recompressCore_empty env _ order hemp] at h
      cases h
    · by_cases hcpio : env.cpioExitCode = 0
      · cases hstat : env.outputStatOk with
        | true => rw [recompressCore_cpio_ok env _ order hemp hcpio hstat]
        | false =>
          rw [recompressCore_stat_fail env _ order hemp hcpio hstat] at h
          cases h
      · rw [recompressCore_cpio_fail env _ order hemp hcpio] at h
        cases h

theorem recompressCore_empty_trace_shape (env : RecompressEnv) (pre : List Event)
    (order : List String)
    (hemp : (fixControlFirst order).1.filter env.onDisk = []) :
    ∀ e ∈ (recompressCore env pre order).trace,
      e ∈ pre ∨ e = Event.warnControlNotFirst
        ∨ (∃ f, e = Event.warnMissingFile f) ∨ e = Event.errorNoFiles := by
  rw [recompressCore_empty env pre order hemp]
  intro e he
  simp only [List.mem_append] at he
  rcases he with ((hp | hf) | hv) | herr
  · exact Or.inl hp
  · exact Or.inr (Or.inl (fixControlFirst_snd_shape order e hf))
  · exact Or.inr (Or.inr (Or.inl (verifyFiles_snd_shape _ _ e hv)))
  · exact Or.inr (Or.inr (Or.inr (by simpa using herr)))

theorem extract_swu_listing_none (env : ExtractEnv) (h : env.listing = none) :
    (extract_swu env).1 = none
    ∧ Event.warnListFailed ∈ (extract_swu env).2
    ∧ Event.runExtract ∈ (extract_swu env).2 := by
  obtain ⟨listing, ok⟩ := env
  cases h
  cases ok <;> simp [extract_swu]

/-! ### Claim theorems -/

/-- Claim C1 — for every archive whose member-order list starts with the
control member `sw-description` and all of whose listed members are regular
files on disk after extraction, `recompress_swu` succeeds and feeds exactly
the original listing order to the archive-construction tool, so the rebuilt
archive's listed member order is exactly the original one; the fed order is
derived from the recorded listing, never from directory iteration. -/
theorem recompress_preserves_member_order (env : RecompressEnv)
    (lines order : List String)
    (hl : env.extract.listing = some lines)
    (hx : env.extract.extractOk = true)
    (hs : stripLines lines = order)
    (hfirst : order.head? = some swDescription)
    (hdisk : ∀ f ∈ order, env.onDisk f = true)
    (hcpio : env.cpioExitCode = 0)
    (hstat : env.outputStatOk = true) :
    (recompress_swu env).success = true
    ∧ (recompress_swu env).fedList = some order
    ∧ (recompress_swu env).builtListing = some (cpioListing order)
    ∧ cpioListing order = order := by
  have hne : order ≠ [] := by
    intro h
    rw [h] at hfirst
    cases hfirst
  have hex : extract_swu env.extract
      = (some order, [Event.listFiles, Event.runExtract]) := by
    have h := extract_swu_eq env.extract lines hl hx (by rw [hs]; exact hne)
    rw [hs] at h
    exact h
  have hfix : (fixControlFirst order).1 = order := by
    simp [fixControlFirst, hfirst]
  have hfilter : (fixControlFirst order).1.filter env.onDisk = order := by
    rw [hfix]
    exact List.filter_eq_self.mpr hdisk
  rw [recompress_swu_extract_some env order (by rw [hex])]
  rw [recompressCore_cpio_ok env _ order (by rw [hfilter]; exact hne) hcpio hstat]
  simp [hfilter, cpioListing]

/-- Witness for C1 at a concrete two-member archive. -/
theorem recompress_preserves_member_order_witness :
    (recompress_swu sampleRecompressEnv).success = true
    ∧ (recompress_swu sampleRecompressEnv).fedList
        = some [swDescription, "rootfs.img"]
    ∧ (recompress_swu sampleRecompressEnv).builtListing
        = some (cpioListing [swDescription, "rootfs.img"])
    ∧ cpioListing [swDescription, "rootfs.img"] = [swDescription, "rootfs.img"] :=
  recompress_preserves_member_order sampleRecompressEnv
    [swDescription, "rootfs.img"] [swDescription, "rootfs.img"]
    rfl rfl (by decide) (by decide) (fun f _ => rfl) rfl rfl

/-- Claim C2 — when the raw member listing does not start with the control
member `sw-description`, the corrected list puts it at position 0 (one
occurrence removed, reinserted first, so its total count is preserved when
it was present) and a warning is logged; when the control member is
entirely absent from the listing and every raw member is on disk while no
file of the control member's name is, repackaging still succeeds and the
list fed to the archive builder is exactly the raw order (the inserted
name is filtered away). -/
theorem control_member_correction (env : RecompressEnv)
    (lines order : List String)
    (hl : env.extract.listing = some lines)
    (hx : env.extract.extractOk = true)
    (hs : stripLines lines = order)
    (hne : order ≠ [])
    (hnotfirst : order.head? ≠ some swDescription) :
    (fixControlFirst order).1 = swDescription :: order.erase swDescription
    ∧ (fixControlFirst order).1.head? = some swDescription
    ∧ (swDescription ∈ order →
        (fixControlFirst order).1.count swDescription
          = order.count swDescription)
    ∧ Event.warnControlNotFirst ∈ (recompress_swu env).trace
    ∧ (swDescription ∉ order → env.onDisk swDescription = false →
        (∀ f ∈ order, env.onDisk f = true) →
        env.cpioExitCode = 0 → env.outputStatOk = true →
        (recompress_swu env).success = true
        ∧ (recompress_swu env).fedList = some order) := by
  have hex : extract_swu env.extract
      = (some order, [Event.listFiles, Event.runExtract]) := by
    have h := extract_swu_eq env.extract lines hl hx (by rw [hs]; exact hne)
    rw [hs] at h
    exact h
  have hcore := recompress_swu_extract_some env order (by rw [hex])
  have hfix1 : (fixControlFirst order).1
      = swDescription :: order.erase swDescription := by
    simp [fixControlFirst, hnotfirst]
  have hfix2 : (fixControlFirst order).2 = [Event.warnControlNotFirst] := by
    simp [fixControlFirst, hnotfirst]
  refine ⟨hfix1, by rw [hfix1]; rfl, ?_, ?_, ?_⟩
  · intro hmem
    rw [hfix1, List.count_cons_self, List.count_erase_self]
    have hpos : 0 < order.count swDescription := List.count_pos_iff.mpr hmem
    omega
  · rw [hcore]
    exact recompressCore_fix_events env _ order _ (by rw [hfix2]; exact List.mem_singleton_self _)
  · intro habs hdisk0 hdisk hcpio hstat
    have herase : order.erase swDescription = order := List.erase_of_not_mem habs
    have hfilter : (fixControlFirst order).1.filter env.onDisk = order := by
      rw [hfix1, herase, List.filter_cons]
      simp only [hdisk0]
      simpa using List.filter_eq_self.mpr hdisk
    rw [hcore, recompressCore_cpio_ok env _ order (by rw [hfilter]; exact hne)
      hcpio hstat]
    simp [hfilter]

/-- Witness for C2 at a one-member archive lacking the control member. -/
theorem control_member_correction_witness :
    ((fixControlFirst ["rootfs.img"]).1
      = swDescription :: (["rootfs.img"].erase swDescription))
    ∧ Event.warnControlNotFirst ∈ (recompress_swu absentControlEnv).trace
    ∧ (recompress_swu absentControlEnv).success = true
    ∧ (recompress_swu absentControlEnv).fedList = some ["rootfs.img"] := by
  have h := control_member_correction absentControlEnv ["rootfs.img"]
    ["rootfs.img"] rfl rfl (by decide) (by decide) (by decide)
  have h5 := h.2.2.2.2 (by decide) (by decide) (by decide) rfl rfl
  exact ⟨h.1, h.2.2.2.1, h5.1, h5.2⟩

/-- Claim C5 — every member of the (corrected) order list that is not a
file on disk is warned about and excluded from the list fed to the archive
builder (every fed name is on disk); and if the filtering leaves nothing,
`recompress_swu` fails without opening the output file or invoking the
archive-construction tool. -/
theorem missing_members_skipped (env : RecompressEnv)
    (lines order : List String)
    (hl : env.extract.listing = some lines)
    (hx : env.extract.extractOk = true)
    (hs : stripLines lines = order)
    (hne : order ≠ []) :
    (∀ f ∈ (fixControlFirst order).1, env.onDisk f = false →
        Event.warnMissingFile f ∈ (recompress_swu env).trace)
    ∧ (∀ fl, (recompress_swu env).fedList = some fl →
        ∀ f ∈ fl, env.onDisk f = true)
    ∧ ((fixControlFirst order).1.filter env.onDisk = [] →
        (recompress_swu env).success = false
        ∧ (recompress_swu env).fedList = none
        ∧ (∀ fs, Event.runCpio fs ∉ (recompress_swu env).trace)
        ∧ Event.openOutput ∉ (recompress_swu env).trace) := by
  have hex : extract_swu env.extract
      = (some order, [Event.listFiles, Event.runExtract]) := by
    have h := extract_swu_eq env.extract lines hl hx (by rw [hs]; exact hne)
    rw [hs] at h
    exact h
  have hcore := recompress_swu_extract_some env order (by rw [hex])
  refine ⟨?_, recompress_swu_fedList_onDisk env, ?_⟩
  · intro f hf hd
    rw [hcore]
    exact recompressCore_ver_events env _ order _ (verifyFiles_warns _ _ f hf hd)
  · intro hemp
    have hshape := recompressCore_empty_trace_shape env
      (statWarn env.originalStat ++ (extract_swu env.extract).2) order hemp
    rw [hcore, recompressCore_empty env _ order hemp]
    rw [recompressCore_empty env _ order hemp] at hshape
    refine ⟨rfl, rfl, ?_, ?_⟩
    · intro fs hmem
      rcases hshape _ hmem with hp | hfx | ⟨g, hg⟩ | herr
      · rw [hex] at hp
        rcases List.mem_append.mp hp with hq | hq
        · cases statWarn_shape env.originalStat _ hq
        · simp at hq
      · cases hfx
      · cases hg
      · cases herr
    · intro hmem
      rcases hshape _ hmem with hp | hfx | ⟨g, hg⟩ | herr
      · rw [hex] at hp
        rcases List.mem_append.mp hp with hq | hq
        · cases statWarn_shape env.originalStat _ hq
        · simp at hq
      · cases hfx
      · cases hg
      · cases herr

/-- Witness for C5 at an archive listing one member that is missing on
disk. -/
theorem missing_members_skipped_witness :
    Event.warnMissingFile "ghost.img" ∈ (recompress_swu missingMemberEnv).trace
    ∧ (recompress_swu missingMemberEnv).fedList
        = some [swDescription, "rootfs.img"] := by
  have h := missing_members_skipped missingMemberEnv
    [swDescription, "ghost.img", "rootfs.img"]
    [swDescription, "ghost.img", "rootfs.img"] rfl rfl (by decide) (by decide)
  exact ⟨h.1 "ghost.img" (by decide) (by decide), by decide⟩

/-- Claim C10 — every name admitted to the verified member list is a
regular file at its extracted path, so non-regular entries never reach the
rebuilt archive; and when no listed name is a regular file on disk,
repackaging fails. -/
theorem verified_list_only_regular_files (env : RecompressEnv)
    (lines order : List String)
    (hl : env.extract.listing = some lines)
    (hx : env.extract.extractOk = true)
    (hs : stripLines lines = order)
    (hne : order ≠ []) :
    (∀ fl, (recompress_swu env).fedList = some fl →
        ∀ f ∈ fl, env.onDisk f = true)
    ∧ ((∀ f, env.onDisk f = false) → (recompress_swu env).success = false) := by
  have hex : extract_swu env.extract
      = (some order, [Event.listFiles, Event.runExtract]) := by
    have h := extract_swu_eq env.extract lines hl hx (by rw [hs]; exact hne)
    rw [hs] at h
    exact h
  have hcore := recompress_swu_extract_some env order (by rw [hex])
  refine ⟨recompress_swu_fedList_onDisk env, ?_⟩
  intro hall
  have hemp : (fixControlFirst order).1.filter env.onDisk = [] := by
    apply List.filter_eq_nil_iff.mpr
    intro a _
    simp [hall a]
  rw [hcore, recompressCore_empty env _ order hemp]

/-- Witness for C10 at an archive whose only listed entry is not a regular
file on disk. -/
theorem verified_list_only_regular_files_witness :
    (recompress_swu noRegularFilesEnv).success = false := by
  have h := verified_list_only_regular_files noRegularFilesEnv ["subdir"]
    ["subdir"] rfl rfl (by decide) (by decide)
  exact h.2 (fun f => rfl)

/-- Claim C9 — when the archive-construction run exits nonzero,
`recompress_swu` returns failure, but the output file was already opened
for writing (created/truncated) before the process ran, so the bytes the
failed process wrote are what sits at the recompressed-output path: the
failure is not atomic with respect to the output file. -/
theorem cpio_failure_after_output_opened (env : RecompressEnv)
    (fl : List String)
    (hfl : (recompress_swu env).fedList = some fl)
    (hcpio : env.cpioExitCode ≠ 0) :
    (recompress_swu env).success = false
    ∧ (recompress_swu env).outputOpened = true
    ∧ (∃ pre, (recompress_swu env).trace
        = pre ++ [Event.openOutput, Event.runCpio fl, Event.errorCpioFailed])
    ∧ ∀ contents : FileId → List Nat,
        afterRecompress contents (recompress_swu env) env.cpioOutput
          FileId.recompressedOutput = env.cpioOutput := by
  cases hex : (extract_swu env.extract).1 with
  | none =>
    rw [recompress_swu_extract_none env hex] at hfl
    cases hfl
  | some order =>
    have hcore := recompress_swu_extract_some env order hex
    rw [hcore] at hfl ⊢
    by_cases hemp : (fixControlFirst order).1.filter env.onDisk = []
    · rw [recompressCore_empty env _ order hemp] at hfl
      cases hfl
    · rw [recompressCore_cpio_fail env _ order hemp hcpio] at hfl ⊢
      obtain rfl : (fixControlFirst order).1.filter env.onDisk = fl :=
        Option.some_injective _ hfl
      refine ⟨rfl, rfl, ⟨_, rfl⟩, ?_⟩
      intro contents
      simp [afterRecompress]

/-- Witness for C9 at a job whose `cpio -o` run exits with code 1. -/
theorem cpio_failure_after_output_opened_witness :
    (recompress_swu cpioFailRecompressEnv).success = false
    ∧ (recompress_swu cpioFailRecompressEnv).outputOpened = true
    ∧ (∃ pre, (recompress_swu cpioFailRecompressEnv).trace
        = pre ++ [Event.openOutput,
            Event.runCpio [swDescription, "rootfs.img"],
            Event.errorCpioFailed])
    ∧ ∀ contents : FileId → List Nat,
        afterRecompress contents (recompress_swu cpioFailRecompressEnv)
          cpioFailRecompressEnv.cpioOutput FileId.recompressedOutput
          = cpioFailRecompressEnv.cpioOutput :=
  cpio_failure_after_output_opened cpioFailRecompressEnv
    [swDescription, "rootfs.img"] (by decide) (by decide)

/-- Counterexample for C6: with a failed listing and a successful
extraction, `extract_swu` returns the absent result — exactly the signal
its caller treats as fatal extraction failure. -/
theorem extract_listing_failure_returns_none :
    (extract_swu { listing := none, extractOk := true }).1 = none := rfl

/-- Claim C6 (amended) — a listing failure logs a warning and extraction is
still attempted, but `extract_swu` then returns the absent result even
when extraction succeeds (line 109 `return file_order if file_order else
None`), so `recompress_swu` reports extraction failure and fails. -/
theorem listing_failure_warns_but_fails (renv : RecompressEnv)
    (h : renv.extract.listing = none) :
    Event.warnListFailed ∈ (extract_swu renv.extract).2
    ∧ Event.runExtract ∈ (extract_swu renv.extract).2
    ∧ (extract_swu renv.extract).1 = none
    ∧ (recompress_swu renv).success = false
    ∧ Event.errorExtractSwu ∈ (recompress_swu renv).trace := by
  obtain ⟨hnone, hwarn, hrun⟩ := extract_swu_listing_none renv.extract h
  rw [recompress_swu_extract_none renv hnone]
  exact ⟨hwarn, hrun, hnone, rfl, by simp [List.mem_append]⟩

/-- Witness for C6 (amended) at a job whose `cpio -it` raised and whose
`cpio -idmv` succeeded. -/
theorem listing_failure_warns_but_fails_witness :
    Event.warnListFailed ∈ (extract_swu listFailEnv.extract).2
    ∧ Event.runExtract ∈ (extract_swu listFailEnv.extract).2
    ∧ (extract_swu listFailEnv.extract).1 = none
    ∧ (recompress_swu listFailEnv).success = false
    ∧ Event.errorExtractSwu ∈ (recompress_swu listFailEnv).trace :=
  listing_failure_warns_but_fails listFailEnv rfl

/-- Counterexample for C7: with an unstat-able source path the size probe
raises out of `generate_delta` — the step does not complete for every pair
of input paths. -/
theorem size_probe_raises_counterexample :
    generate_delta statRaisesEnv = DeltaOutcome.raised := rfl

/-- Claim C7 (amended) — the size probe completes (and `generate_delta`
proceeds past it) exactly when both input archives can be statted; when
either `stat` fails, the exception propagates uncaught out of
`generate_delta`. -/
theorem size_probe_raises_iff (env : DeltaEnv) :
    generate_delta env = DeltaOutcome.raised
      ↔ env.sourceStat = none ∨ env.targetStat = none := by
  cases hsrc : env.sourceStat with
  | none => simp [generate_delta, hsrc]
  | some a =>
    cases htgt : env.targetStat with
    | none => simp [generate_delta, hsrc, htgt]
    | some b => simp [generate_delta, hsrc, htgt]

/-- If a job's pipeline returned success, `bsdiff` was available and
succeeded and the compression step did not fail. -/
theorem deltaCore_success_conditions (env : DeltaEnv)
    (hs : (deltaCore env).success = true) :
    (!env.bsdiffAvailable || !env.bsdiffOk) = false
    ∧ (env.zstdAvailable && !env.zstdOk) = false := by
  by_cases h1 : (!env.bsdiffAvailable || !env.bsdiffOk) = true
  · exfalso
    simp [deltaCore, h1] at hs
  · have h1f : (!env.bsdiffAvailable || !env.bsdiffOk) = false :=
      Bool.eq_false_iff.mpr h1
    by_cases h2 : (env.zstdAvailable && !env.zstdOk) = true
    · exfalso
      simp [deltaCore, h1f, h2] at hs
    · exact ⟨h1f, Bool.eq_false_iff.mpr h2⟩

/-- Claim C4 — when recompression was requested and failed, the pipeline
logs a warning, hands `bsdiff` the original target archive whose bytes are
untouched by the failed attempt (only the recompressed-output file was
written), and the job still succeeds as long as the diff and compression
steps do. -/
theorem recompress_failure_fallback (env : DeltaEnv)
    (hreq : env.recompressRequested = true)
    (hfail : (recompress_swu env.renv).success = false) :
    (deltaCore env).targetForDiff = FileId.targetSwu
    ∧ (deltaCore env).finalContents FileId.targetSwu
        = env.contents FileId.targetSwu
    ∧ Event.warnRecompressFailed ∈ (deltaCore env).trace
    ∧ (env.bsdiffAvailable = true → env.bsdiffOk = true →
        (env.zstdAvailable = true → env.zstdOk = true) →
        (deltaCore env).success = true) := by
  refine ⟨?_, ?_, ?_, ?_⟩
  · by_cases h1 : (!env.bsdiffAvailable || !env.bsdiffOk) = true
    · simp [deltaCore, h1, hreq, hfail]
    · by_cases h2 : (env.zstdAvailable && !env.zstdOk) = true
      · simp [deltaCore, Bool.eq_false_iff.mpr h1, h2, hreq, hfail]
      · simp [deltaCore, Bool.eq_false_iff.mpr h1, Bool.eq_false_iff.mpr h2,
          hreq, hfail]
  · by_cases h1 : (!env.bsdiffAvailable || !env.bsdiffOk) = true
    · simp [deltaCore, h1, hreq, hfail, afterRecompress, ite_apply,
        Function.update_apply]
    · by_cases h2 : (env.zstdAvailable && !env.zstdOk) = true
      · simp [deltaCore, Bool.eq_false_iff.mpr h1, h2, hreq, hfail,
          afterRecompress, ite_apply, Function.update_apply]
      · simp [deltaCore, Bool.eq_false_iff.mpr h1, Bool.eq_false_iff.mpr h2,
          hreq, hfail, afterRecompress, ite_apply, Function.update_apply]
  · by_cases h1 : (!env.bsdiffAvailable || !env.bsdiffOk) = true
    · simp [deltaCore, h1, hreq, hfail, List.mem_append]
    · by_cases h2 : (env.zstdAvailable && !env.zstdOk) = true
      · simp [deltaCore, Bool.eq_false_iff.mpr h1, h2, hreq, hfail,
          List.mem_append]
      · simp [deltaCore, Bool.eq_false_iff.mpr h1, Bool.eq_false_iff.mpr h2,
          hreq, hfail, List.mem_append]
  · intro hba hbo hz
    cases hza : env.zstdAvailable with
    | false => simp [deltaCore, hba, hbo, hza]
    | true => simp [deltaCore, hba, hbo, hza, hz hza]

/-- Witness for C4 at a job whose recompression fails at the `cpio -o`
stage while `bsdiff` and `zstd` succeed. -/
theorem recompress_failure_fallback_witness :
    (deltaCore fallbackEnv).targetForDiff = FileId.targetSwu
    ∧ (deltaCore fallbackEnv).finalContents FileId.targetSwu
        = fallbackEnv.contents FileId.targetSwu
    ∧ Event.warnRecompressFailed ∈ (deltaCore fallbackEnv).trace
    ∧ (deltaCore fallbackEnv).success = true := by
  have h := recompress_failure_fallback fallbackEnv rfl (by decide)
  exact ⟨h.1, h.2.1, h.2.2.1, h.2.2.2 rfl rfl (fun _ => rfl)⟩

/-- Counterexample for C3: a job whose recompression fails at the
`cpio -o` stage (after the output file was created) diffs against the
original target but computes statistics against the recompressed-output
file — the persisted target size is not the size of the diff step's target
input. -/
theorem stats_target_mismatch_counterexample :
    (deltaCore statsMismatchEnv).success = true
    ∧ (recompress_swu statsMismatchEnv.renv).success = false
    ∧ (deltaCore statsMismatchEnv).targetForDiff = FileId.targetSwu
    ∧ (deltaCore statsMismatchEnv).statsTarget
        = some FileId.recompressedOutput := by
  decide

/-- Claim C3 (amended) — for a successful job the statistics target is the
recompressed output exactly when a recompressed-output path was requested
and a file sits at that path (pre-existing, or created by the recompression
attempt even when it failed); it coincides with the diff step's target
input whenever recompression was not requested or succeeded, but after a
failed attempt that already opened the output file the statistics target
is the recompressed output while the diff used the original target. -/
theorem stats_target_selection (env : DeltaEnv)
    (hs : (deltaCore env).success = true) :
    (env.recompressRequested = false →
        (deltaCore env).statsTarget = some FileId.targetSwu
        ∧ (deltaCore env).targetForDiff = FileId.targetSwu)
    ∧ (env.recompressRequested = true →
        (recompress_swu env.renv).success = true →
        (deltaCore env).statsTarget = some FileId.recompressedOutput
        ∧ (deltaCore env).targetForDiff = FileId.recompressedOutput)
    ∧ (env.recompressRequested = true →
        (recompress_swu env.renv).success = false →
        (deltaCore env).targetForDiff = FileId.targetSwu
        ∧ (deltaCore env).statsTarget
            = some (if env.recompressedPreexists
                  || (recompress_swu env.renv).outputOpened
                then FileId.recompressedOutput
                else FileId.targetSwu)) := by
  obtain ⟨h1, h2⟩ := deltaCore_success_conditions env hs
  refine ⟨?_, ?_, ?_⟩
  · intro hreq
    constructor <;> simp [deltaCore, h1, h2, hreq]
  · intro hreq hrs
    constructor <;>
      simp [deltaCore, h1, h2, hreq, hrs,
        recompress_swu_success_opened env.renv hrs]
  · intro hreq hrf
    constructor
    · simp [deltaCore, h1, h2, hreq, hrf]
    · simp [deltaCore, h1, h2, hreq, hrf]

/-- Witness for C3 (amended) at a job whose recompression succeeds: the
statistics target and the diff target agree on the recompressed output. -/
theorem stats_target_selection_witness :
    (deltaCore recompressSuccessEnv).statsTarget
      = some FileId.recompressedOutput
    ∧ (deltaCore recompressSuccessEnv).targetForDiff
      = FileId.recompressedOutput := by
  have h := stats_target_selection recompressSuccessEnv (by decide)
  exact h.2.1 rfl (by decide)

/-- Any statistics record a job persists was produced by
`generate_statistics` on the three stat'd sizes. -/
theorem deltaCore_stats_shape (env : DeltaEnv) (st : Stats)
    (hst : (deltaCore env).stats = some st) :
    ∃ s t d, st = generate_statistics s t d := by
  simp only [deltaCore] at hst
  split at hst
  · cases hst
  · split at hst
    · cases hst
    · exact ⟨_, _, _, (Option.some_injective _ hst).symm⟩

/-- Claim C8 — the statistics persisted for a successful job satisfy
`0 ≤ diff_size`, `compression_ratio = 100 * diff_size / target_size`
(and 0 when `target_size` is 0), and
`space_saved = target_size - diff_size` over the integers. -/
theorem statistics_invariants_of_success (env : DeltaEnv) (st : Stats)
    (hs : (deltaCore env).success = true)
    (hst : (deltaCore env).stats = some st) :
    0 ≤ st.diff_size
    ∧ st.compression_ratio
        = (if st.target_size = 0 then 0
           else 100 * (st.diff_size : ℚ) / (st.target_size : ℚ))
    ∧ st.space_saved = (st.target_size : ℤ) - (st.diff_size : ℤ) := by
  obtain ⟨s, t, d, rfl⟩ := deltaCore_stats_shape env st hst
  refine ⟨Nat.zero_le _, ?_, rfl⟩
  by_cases ht : t = 0
  · subst ht
    simp [generate_statistics]
  · have htpos : 0 < t := Nat.pos_of_ne_zero ht
    simp only [generate_statistics, if_pos htpos, if_neg ht]
    ring

/-- Witness for C8 at a fully successful job with sizes 1, 1 and 2. -/
theorem statistics_invariants_of_success_witness :
    0 ≤ (generate_statistics 1 1 2).diff_size
    ∧ (generate_statistics 1 1 2).compression_ratio
        = (if (generate_statistics 1 1 2).target_size = 0 then 0
           else 100 * ((generate_statistics 1 1 2).diff_size : ℚ)
             / ((generate_statistics 1 1 2).target_size : ℚ))
    ∧ (generate_statistics 1 1 2).space_saved
        = ((generate_statistics 1 1 2).target_size : ℤ)
          - ((generate_statistics 1 1 2).diff_size : ℤ) :=
  statistics_invariants_of_success plainSuccessEnv (generate_statistics 1 1 2)
    rfl rfl

end SimpleDeltaGen
